import Mathlib

/-!
Verification of the storefront core (cart totals, promo-code discount engine,
checkout, order lifecycle) against its natural-language specification.

The embedding follows the TypeScript/Mongoose source:
* money amounts are embedded as exact rationals (`ℚ`);
* timestamps (`Date` values) as integers (`ℤ`, epoch milliseconds);
* quantities and stock levels as integers (`ℤ`);
* usage counters as naturals (`ℕ`);
* optional document fields as `Option`; JavaScript truthiness tests on such
  fields (`if (this.maxDiscount)`, `if (trackingNumber)`) are embedded by
  explicit truthiness helpers, so `some 0` / `some ""` count as falsy
  exactly as in the source.
-/

namespace Storefront

/-- JS truthiness of an optional number field: `undefined` and `0` are falsy. -/
def truthyQ : Option ℚ → Bool
  | none => false
  | some x => x ≠ 0

/-- JS truthiness of an optional natural-number field. -/
def truthyN : Option ℕ → Bool
  | none => false
  | some n => n ≠ 0

/-- JS truthiness of an optional string field: `undefined` and `""` are falsy. -/
def truthyS : Option String → Bool
  | none => false
  | some s => s ≠ ""

/-! ### PromoCode (src/src/models/PromoCode.ts) -/

/-- The `type` enum of the promo-code schema: `'percentage' | 'fixed'`. -/
inductive PromoType where
  | percentage
  | fixed
deriving DecidableEq, Repr

/-- A promo-code document (fields of the `promoCodeSchema`). -/
structure PromoCode where
  code : String
  type : PromoType
  value : ℚ
  maxDiscount : Option ℚ
  minOrderAmount : Option ℚ
  validFrom : ℤ
  validTo : ℤ
  maxUses : Option ℕ
  usedCount : ℕ
  isActive : Bool
deriving DecidableEq, Repr

/-- Schema-level constraints of `promoCodeSchema` (the `min` validators):
`value ≥ 0`, `maxDiscount ≥ 0` when present, `minOrderAmount ≥ 0` when
present, `maxUses ≥ 1` when present. -/
def PromoCode.schemaValid (p : PromoCode) : Prop :=
  0 ≤ p.value ∧
  (∀ d ∈ p.maxDiscount, 0 ≤ d) ∧
  (∀ m ∈ p.minOrderAmount, 0 ≤ m) ∧
  (∀ n ∈ p.maxUses, 1 ≤ n)

instance (p : PromoCode) : Decidable p.schemaValid := by
  unfold PromoCode.schemaValid; infer_instance

/-- `promoCodeSchema.methods.isValid`, with the current time passed
explicitly.  The source reads
`this.isActive && now >= this.validFrom && now <= this.validTo &&
 (!this.maxUses || this.usedCount < this.maxUses)`;
note that `!this.maxUses` is a truthiness test, so `maxUses` equal to `0`
behaves like an absent cap. -/
def PromoCode.isValidAt (p : PromoCode) (now : ℤ) : Bool :=
  p.isActive && decide (p.validFrom ≤ now) && decide (now ≤ p.validTo) &&
    (!truthyN p.maxUses || decide (p.usedCount < p.maxUses.getD 0))

/-- `promoCodeSchema.methods.calculateDiscount`, with the current time passed
explicitly (the source fetches it via `new Date()` inside `isValid`). -/
def PromoCode.calculateDiscount (p : PromoCode) (subtotal : ℚ) (now : ℤ) : ℚ :=
  if !p.isValidAt now then 0
  else if truthyQ p.minOrderAmount && decide (subtotal < p.minOrderAmount.getD 0) then 0
  else
    let discount : ℚ := if p.type = .percentage then subtotal * p.value / 100 else p.value
    let discount : ℚ := if truthyQ p.maxDiscount then min discount (p.maxDiscount.getD 0) else discount
    min discount subtotal

/-- The method body performs only reads, so its stateful embedding returns the
promo record unchanged next to the computed number. -/
def PromoCode.calculateDiscountSt (p : PromoCode) (subtotal : ℚ) (now : ℤ) :
    ℚ × PromoCode :=
  (p.calculateDiscount subtotal now, p)

/-- `promoCodeSchema.methods.incrementUsage`: bumps `usedCount` by one. -/
def PromoCode.incrementUsage (p : PromoCode) : PromoCode :=
  { p with usedCount := p.usedCount + 1 }

/-- The claimed discount function, written from the claim's words: valid means
`isActive` and in-window and (`maxUses` *unset* or `usedCount < maxUses`), and
the raw discount is clamped to `maxDiscount` *whenever `maxDiscount` is set*,
then to the subtotal.  Used to compare the claim against the source. -/
def claimedDiscount (p : PromoCode) (subtotal : ℚ) (now : ℤ) : ℚ :=
  let valid : Bool := p.isActive && decide (p.validFrom ≤ now) && decide (now ≤ p.validTo) &&
    (p.maxUses.isNone || decide (p.usedCount < p.maxUses.getD 0))
  if !valid then 0
  else if p.minOrderAmount.isSome && decide (subtotal < p.minOrderAmount.getD 0) then 0
  else
    let raw : ℚ := if p.type = .percentage then subtotal * p.value / 100 else p.value
    let clamped : ℚ := if p.maxDiscount.isSome then min raw (p.maxDiscount.getD 0) else raw
    min clamped subtotal

/-! ### Cart (cart schema and instance methods in src/src/models/Order.ts)

Each cart operation in the source mutates the in-memory document, calls
`calculateTotals()` and then `save()`.  Mongoose validates the document as
part of `save()` (the schema's `min` validators on `subtotal`, `discount`,
`total` and on each item's `quantity`/`price`); a validation failure rejects
the save, so nothing is persisted and the stored cart keeps its previous
state.  The built-in validation hook runs before the user `pre('save')`
hook, but since every method recomputes totals explicitly before saving, the
validated document already carries recomputed totals and the hook's second
recomputation is idempotent.  `save` below captures exactly this:
validate, then recompute totals, then commit. -/

/-- A cart line item (`cartItemSchema`). -/
structure CartItem where
  productId : String
  variantId : String
  quantity : ℤ
  price : ℚ
  productName : String
  variantName : String
  sku : String
deriving DecidableEq, Repr

/-- A cart document (`cartSchema`). -/
structure Cart where
  id : String
  token : String
  items : List CartItem
  promoCode : Option String
  subtotal : ℚ
  discount : ℚ
  total : ℚ
  expiresAt : ℤ
deriving DecidableEq, Repr

/-- The `reduce` in `calculateTotals`: sum of `price * quantity` over items. -/
def itemsSum (items : List CartItem) : ℚ :=
  (items.map fun it => it.price * (it.quantity : ℚ)).sum

/-- `cartSchema.methods.calculateTotals`: recompute `subtotal` from the items
and `total` from the fresh subtotal and the stored discount. -/
def Cart.calculateTotals (c : Cart) : Cart :=
  { c with
    subtotal := itemsSum c.items
    total := itemsSum c.items - c.discount }

/-- The `min` validators of `cartItemSchema`: `quantity ≥ 1`, `price ≥ 0`. -/
def CartItem.validB (it : CartItem) : Bool :=
  decide (1 ≤ it.quantity) && decide (0 ≤ it.price)

/-- The `min` validators of `cartSchema`: `subtotal ≥ 0`, `discount ≥ 0`,
`total ≥ 0`, and every embedded item valid. -/
def Cart.validB (c : Cart) : Bool :=
  decide (0 ≤ c.subtotal) && decide (0 ≤ c.discount) && decide (0 ≤ c.total) &&
    c.items.all CartItem.validB

/-- Mongoose `save()`: run the schema validators, then the `pre('save')`
hook (`calculateTotals`), then persist; a validation failure rejects the
whole save. -/
def Cart.save (c : Cart) : Except String Cart :=
  if c.validB then .ok c.calculateTotals else .error "Cart validation failed"

/-- The merge step of `addItem`: increment the quantity of the first line
matching `(productId, variantId)`, or push the new line at the end. -/
def addToItems (items : List CartItem) (d : CartItem) : List CartItem :=
  match items with
  | [] => [d]
  | it :: rest =>
    if it.productId = d.productId ∧ it.variantId = d.variantId then
      { it with quantity := it.quantity + d.quantity } :: rest
    else
      it :: addToItems rest d

/-- `cartSchema.methods.addItem`. -/
def Cart.addItem (c : Cart) (d : CartItem) : Except String Cart :=
  (Cart.calculateTotals { c with items := addToItems c.items d }).save

/-- The line update of `updateItemQuantity`: locate the first line matching
`(productId, variantId)`; `none` when absent, otherwise splice it out when
the new quantity is `≤ 0` or overwrite its quantity. -/
def updItems (items : List CartItem) (pid vid : String) (q : ℤ) :
    Option (List CartItem) :=
  match items with
  | [] => none
  | it :: rest =>
    if it.productId = pid ∧ it.variantId = vid then
      some (if q ≤ 0 then rest else { it with quantity := q } :: rest)
    else
      (updItems rest pid vid q).map (it :: ·)

/-- `cartSchema.methods.updateItemQuantity`; throws `'Item not found in
cart'` when no line matches. -/
def Cart.updateItemQuantity (c : Cart) (pid vid : String) (q : ℤ) :
    Except String Cart :=
  match updItems c.items pid vid q with
  | none => .error "Item not found in cart"
  | some items' => (Cart.calculateTotals { c with items := items' }).save

/-- `cartSchema.methods.removeItem`: filter out the matching line. -/
def Cart.removeItem (c : Cart) (pid vid : String) : Except String Cart :=
  (Cart.calculateTotals
    { c with items :=
        c.items.filter fun it => !decide (it.productId = pid ∧ it.variantId = vid) }).save

/-- `cartSchema.methods.clearCart`. -/
def Cart.clearCart (c : Cart) : Except String Cart :=
  (Cart.calculateTotals { c with items := [], promoCode := none, discount := 0 }).save

/-- `cartSchema.methods.applyPromoCode`: the discount is clamped to the
subtotal stored on the document at call time. -/
def Cart.applyPromoCode (c : Cart) (code : String) (amount : ℚ) :
    Except String Cart :=
  (Cart.calculateTotals
    { c with promoCode := some code, discount := min amount c.subtotal }).save

/-- `cartSchema.methods.removePromoCode`. -/
def Cart.removePromoCode (c : Cart) : Except String Cart :=
  (Cart.calculateTotals { c with promoCode := none, discount := 0 }).save

/-- One cart operation of the CartLedger interface. -/
inductive CartOp where
  | addItem (d : CartItem)
  | updateItemQuantity (productId variantId : String) (quantity : ℤ)
  | removeItem (productId variantId : String)
  | applyPromoCode (code : String) (amount : ℚ)
  | removePromoCode
  | clearCart
deriving DecidableEq, Repr

/-- Run one operation (the instance method it names). -/
def CartOp.run (op : CartOp) (c : Cart) : Except String Cart :=
  match op with
  | .addItem d => c.addItem d
  | .updateItemQuantity pid vid q => c.updateItemQuantity pid vid q
  | .removeItem pid vid => c.removeItem pid vid
  | .applyPromoCode code amount => c.applyPromoCode code amount
  | .removePromoCode => c.removePromoCode
  | .clearCart => c.clearCart

/-- The persisted cart after one operation: a failed operation (thrown error
or rejected save) leaves the stored document unchanged. -/
def persistOp (c : Cart) (op : CartOp) : Cart :=
  match op.run c with
  | .ok c' => c'
  | .error _ => c

/-- The persisted cart after a sequence of operations, each running against
the state the previous one left behind. -/
def runOps (c : Cart) : List CartOp → Cart
  | [] => c
  | op :: ops => runOps (persistOp c op) ops

/-- The cart invariant of the spec: the document passes the schema
validators, `subtotal` is the sum of `price × quantity` over the items, and
`total = subtotal − discount`. -/
def Cart.Inv (c : Cart) : Prop :=
  c.validB = true ∧ c.subtotal = itemsSum c.items ∧ c.total = c.subtotal - c.discount

instance (c : Cart) : Decidable c.Inv := by
  unfold Cart.Inv; infer_instance

theorem calculateTotals_eq_self (c : Cart) (h1 : c.subtotal = itemsSum c.items)
    (h2 : c.total = c.subtotal - c.discount) : c.calculateTotals = c := by
  cases c
  simp only [Cart.calculateTotals] at *
  simp_all

theorem calculateTotals_consistent (c : Cart) :
    c.calculateTotals.subtotal = itemsSum c.calculateTotals.items ∧
    c.calculateTotals.total = c.calculateTotals.subtotal - c.calculateTotals.discount := by
  cases c
  simp [Cart.calculateTotals]

/-- A successful save of a totals-recomputed document establishes the cart
invariant: validation passed and the totals are consistent by construction. -/
theorem save_calc_inv (y c' : Cart) (h : y.calculateTotals.save = .ok c') :
    c'.Inv := by
  unfold Cart.save at h
  by_cases hv : y.calculateTotals.validB = true
  · rw [if_pos hv] at h
    have hc := calculateTotals_consistent y
    rw [calculateTotals_eq_self _ hc.1 hc.2] at h
    cases h
    exact ⟨hv, hc.1, hc.2⟩
  · rw [if_neg hv] at h
    cases h

theorem run_ok_inv (op : CartOp) (c c' : Cart) (h : op.run c = .ok c') : c'.Inv := by
  cases op with
  | addItem d => exact save_calc_inv _ _ h
  | updateItemQuantity pid vid q =>
    simp only [CartOp.run, Cart.updateItemQuantity] at h
    cases hu : updItems c.items pid vid q with
    | none => rw [hu] at h; cases h
    | some items' => rw [hu] at h; exact save_calc_inv _ _ h
  | removeItem pid vid => exact save_calc_inv _ _ h
  | applyPromoCode code amount => exact save_calc_inv _ _ h
  | removePromoCode => exact save_calc_inv _ _ h
  | clearCart => exact save_calc_inv _ _ h

theorem persistOp_inv (c : Cart) (op : CartOp) (h : c.Inv) : (persistOp c op).Inv := by
  unfold persistOp
  cases hr : op.run c with
  | ok c' => exact run_ok_inv op c c' hr
  | error e => exact h

theorem runOps_inv (c : Cart) (ops : List CartOp) (h : c.Inv) : (runOps c ops).Inv := by
  induction ops generalizing c with
  | nil => exact h
  | cons op ops ih => exact ih _ (persistOp_inv c op h)

theorem Inv.bounds (c : Cart) (h : c.Inv) :
    c.subtotal = itemsSum c.items ∧ c.total = c.subtotal - c.discount ∧
    0 ≤ c.discount ∧ c.discount ≤ c.subtotal := by
  obtain ⟨hv, h1, h2⟩ := h
  unfold Cart.validB at hv
  simp only [Bool.and_eq_true, decide_eq_true_eq] at hv
  refine ⟨h1, h2, hv.1.1.2, ?_⟩
  have h0 : (0 : ℚ) ≤ c.total := hv.1.2
  rw [h2] at h0
  linarith

/-- Membership test used by `addItem` / `updateItemQuantity` / `removeItem`:
does a line reference the given `(productId, variantId)` pair? -/
def isPair (pid vid : String) (it : CartItem) : Bool :=
  decide (it.productId = pid ∧ it.variantId = vid)

/-- Number of cart lines referencing the pair. -/
def pairCount (items : List CartItem) (pid vid : String) : ℕ :=
  (items.filter (isPair pid vid)).length

/-- Summed quantity over the cart lines referencing the pair. -/
def pairQty (items : List CartItem) (pid vid : String) : ℤ :=
  ((items.filter (isPair pid vid)).map (·.quantity)).sum

theorem itemsSum_nonneg (items : List CartItem)
    (h : ∀ it ∈ items, it.validB = true) : 0 ≤ itemsSum items := by
  induction items with
  | nil => simp [itemsSum]
  | cons it rest ih =>
    have hit := h it (List.mem_cons_self it rest)
    unfold CartItem.validB at hit
    simp only [Bool.and_eq_true, decide_eq_true_eq] at hit
    have hrest : 0 ≤ itemsSum rest := ih fun x hx => h x (List.mem_cons_of_mem it hx)
    have hq : (1 : ℚ) ≤ (it.quantity : ℚ) := by exact_mod_cast hit.1
    have : 0 ≤ it.price * (it.quantity : ℚ) :=
      mul_nonneg hit.2 (le_trans zero_le_one hq)
    simp only [itemsSum, List.map_cons, List.sum_cons]
    have := add_le_add this hrest
    simpa [itemsSum] using add_nonneg ‹0 ≤ it.price * (it.quantity : ℚ)› hrest

theorem itemValidB_iff (it : CartItem) :
    it.validB = true ↔ 1 ≤ it.quantity ∧ 0 ≤ it.price := by
  unfold CartItem.validB
  simp

theorem addToItems_all_valid (items : List CartItem) (d : CartItem)
    (h : ∀ it ∈ items, it.validB = true) (hd : d.validB = true) :
    ∀ it ∈ addToItems items d, it.validB = true := by
  have hd' := (itemValidB_iff d).mp hd
  induction items with
  | nil => simpa [addToItems] using hd
  | cons it rest ih =>
    by_cases hp : it.productId = d.productId ∧ it.variantId = d.variantId
    · simp only [addToItems, if_pos hp]
      intro x hx
      rcases List.mem_cons.mp hx with h1 | h2
      · subst h1
        have hit := (itemValidB_iff it).mp (h it (List.mem_cons_self it rest))
        rw [itemValidB_iff]
        refine ⟨?_, hit.2⟩
        show 1 ≤ it.quantity + d.quantity
        omega
      · exact h x (List.mem_cons_of_mem it h2)
    · simp only [addToItems, if_neg hp]
      intro x hx
      rcases List.mem_cons.mp hx with h1 | h2
      · subst h1; exact h x (List.mem_cons_self x rest)
      · exact ih (fun y hy => h y (List.mem_cons_of_mem it hy)) x h2

theorem itemsSum_addToItems_ge (items : List CartItem) (d : CartItem)
    (h : ∀ it ∈ items, it.validB = true) (hd : d.validB = true) :
    itemsSum items ≤ itemsSum (addToItems items d) := by
  have hdq : 1 ≤ d.quantity := ((itemValidB_iff d).mp hd).1
  have hdp : 0 ≤ d.price := ((itemValidB_iff d).mp hd).2
  have hdq' : (0 : ℚ) ≤ (d.quantity : ℚ) := by exact_mod_cast (by omega : (0 : ℤ) ≤ d.quantity)
  induction items with
  | nil =>
    simp only [addToItems, itemsSum, List.map_nil, List.sum_nil, List.map_cons, List.sum_cons]
    simpa using mul_nonneg hdp hdq'
  | cons it rest ih =>
    have hitp : 0 ≤ it.price :=
      ((itemValidB_iff it).mp (h it (List.mem_cons_self it rest))).2
    by_cases hp : it.productId = d.productId ∧ it.variantId = d.variantId
    · simp only [addToItems, if_pos hp, itemsSum, List.map_cons, List.sum_cons]
      have : it.price * (it.quantity : ℚ) ≤ it.price * ((it.quantity + d.quantity : ℤ) : ℚ) := by
        push_cast
        nlinarith
      simpa [itemsSum] using add_le_add this (le_refl ((rest.map fun x => x.price * (x.quantity : ℚ)).sum))
    · simp only [addToItems, if_neg hp, itemsSum, List.map_cons, List.sum_cons]
      have := ih fun y hy => h y (List.mem_cons_of_mem it hy)
      simpa [itemsSum] using add_le_add (le_refl (it.price * (it.quantity : ℚ))) this

theorem save_calc_ok (y : Cart) (hv : y.calculateTotals.validB = true) :
    y.calculateTotals.save = .ok y.calculateTotals := by
  unfold Cart.save
  rw [if_pos hv,
    calculateTotals_eq_self _ (calculateTotals_consistent y).1 (calculateTotals_consistent y).2]

theorem calc_validB (y : Cart) (hitems : ∀ it ∈ y.items, it.validB = true)
    (hdisc : 0 ≤ y.discount) (htot : y.discount ≤ itemsSum y.items) :
    y.calculateTotals.validB = true := by
  have h0 : 0 ≤ itemsSum y.items := itemsSum_nonneg _ hitems
  show (decide (0 ≤ itemsSum y.items) && decide (0 ≤ y.discount) &&
    decide (0 ≤ itemsSum y.items - y.discount) && y.items.all CartItem.validB) = true
  simp only [Bool.and_eq_true, decide_eq_true_eq, List.all_eq_true]
  exact ⟨⟨⟨h0, hdisc⟩, sub_nonneg.mpr htot⟩, hitems⟩

/-- C1: for every cart satisfying the cart invariant and every sequence of
`addItem` / `updateItemQuantity` / `removeItem` / `applyPromoCode` /
`removePromoCode` / `clearCart`, the persisted cart satisfies
`subtotal = Σ price × quantity`, `total = subtotal − discount` and
`0 ≤ discount ≤ subtotal`.  An operation whose save is rejected by the
schema validators persists nothing, so the stored cart keeps its prior
(invariant-satisfying) state. -/
theorem cart_invariant_all_ops (c : Cart) (h : c.Inv) (ops : List CartOp) :
    (runOps c ops).subtotal = itemsSum (runOps c ops).items ∧
    (runOps c ops).total = (runOps c ops).subtotal - (runOps c ops).discount ∧
    0 ≤ (runOps c ops).discount ∧
    (runOps c ops).discount ≤ (runOps c ops).subtotal :=
  Inv.bounds _ (runOps_inv c ops h)

/-- A fresh cart as `createOrGetCart` creates it. -/
def emptyCart : Cart :=
  { id := "c1", token := "t1", items := [], promoCode := none,
    subtotal := 0, discount := 0, total := 0, expiresAt := 604800000 }

/-- A sample line item. -/
def sampleItem : CartItem :=
  { productId := "p1", variantId := "v1", quantity := 2, price := 10,
    productName := "Shirt", variantName := "M", sku := "SKU1" }

/-- A sample operation sequence exercising merge, promo application and a
rejected removal (removing the only line while a discount is applied). -/
def sampleOps : List CartOp :=
  [.addItem sampleItem, .addItem sampleItem,
   .applyPromoCode "SAVE5" 5,
   .updateItemQuantity "p1" "v1" 1,
   .removeItem "p1" "v1",
   .clearCart]

theorem cart_invariant_all_ops_witness :
    emptyCart.Inv ∧
    ((runOps emptyCart sampleOps).subtotal = itemsSum (runOps emptyCart sampleOps).items ∧
     (runOps emptyCart sampleOps).total =
       (runOps emptyCart sampleOps).subtotal - (runOps emptyCart sampleOps).discount ∧
     0 ≤ (runOps emptyCart sampleOps).discount ∧
     (runOps emptyCart sampleOps).discount ≤ (runOps emptyCart sampleOps).subtotal) :=
  have hInv : emptyCart.Inv := by
    refine ⟨by decide, by norm_num [emptyCart, itemsSum], by norm_num [emptyCart]⟩
  ⟨hInv, cart_invariant_all_ops emptyCart hInv sampleOps⟩

theorem cartValidB_iff (c : Cart) :
    c.validB = true ↔
      0 ≤ c.subtotal ∧ 0 ≤ c.discount ∧ 0 ≤ c.total ∧
        ∀ it ∈ c.items, it.validB = true := by
  unfold Cart.validB
  simp [List.all_eq_true, and_assoc]

theorem addToItems_of_absent (items : List CartItem) (d : CartItem)
    (h : pairCount items d.productId d.variantId = 0) :
    addToItems items d = items ++ [d] := by
  induction items with
  | nil => rfl
  | cons it rest ih =>
    unfold pairCount at h
    rw [List.filter_cons] at h
    by_cases hp : isPair d.productId d.variantId it = true
    · rw [if_pos hp] at h
      simp at h
    · have hp' : ¬(it.productId = d.productId ∧ it.variantId = d.variantId) := by
        simpa [isPair] using hp
      rw [if_neg (by simpa using hp)] at h
      simp only [addToItems, if_neg hp']
      rw [ih h]
      simp

theorem pairCount_append_single (items : List CartItem) (d : CartItem) :
    pairCount (items ++ [d]) d.productId d.variantId =
      pairCount items d.productId d.variantId + 1 := by
  simp [pairCount, List.filter_append, isPair]

theorem pairCount_addToItems_of_present (items : List CartItem) (d : CartItem)
    (h : pairCount items d.productId d.variantId ≠ 0) :
    pairCount (addToItems items d) d.productId d.variantId =
      pairCount items d.productId d.variantId ∧
    (addToItems items d).length = items.length := by
  induction items with
  | nil => simp [pairCount] at h
  | cons it rest ih =>
    by_cases hp : it.productId = d.productId ∧ it.variantId = d.variantId
    · have hpair : isPair d.productId d.variantId it = true := by
        simp [isPair, hp.1, hp.2]
      have hpair' :
          isPair d.productId d.variantId
            { it with quantity := it.quantity + d.quantity } = true := by
        simp [isPair, hp.1, hp.2]
      constructor
      · simp [addToItems, if_pos hp, pairCount, List.filter_cons, hpair, hpair']
      · simp [addToItems, if_pos hp]
    · have hpair : isPair d.productId d.variantId it = false := by
        simp only [isPair, decide_eq_false_iff_not]
        exact hp
      have hrest : pairCount rest d.productId d.variantId ≠ 0 := by
        unfold pairCount at h ⊢
        rw [List.filter_cons, if_neg (by simp [hpair])] at h
        exact h
      have := ih hrest
      constructor
      · unfold pairCount at this ⊢
        simp only [addToItems, if_neg hp, List.filter_cons, hpair]
        simpa using this.1
      · simp only [addToItems, if_neg hp, List.length_cons]
        omega

theorem pairQty_addToItems (items : List CartItem) (d : CartItem) :
    pairQty (addToItems items d) d.productId d.variantId =
      pairQty items d.productId d.variantId + d.quantity := by
  induction items with
  | nil => simp [addToItems, pairQty, isPair]
  | cons it rest ih =>
    by_cases hp : it.productId = d.productId ∧ it.variantId = d.variantId
    · have hpair : isPair d.productId d.variantId it = true := by
        simp [isPair, hp.1, hp.2]
      have hpair' :
          isPair d.productId d.variantId
            { it with quantity := it.quantity + d.quantity } = true := by
        simp [isPair, hp.1, hp.2]
      simp only [addToItems, if_pos hp, pairQty, List.filter_cons, hpair, hpair',
        if_pos, List.map_cons, List.sum_cons]
      unfold pairQty at *
      ring_nf
    · have hpair : isPair d.productId d.variantId it = false := by
        simp only [isPair, decide_eq_false_iff_not]
        exact hp
      simp only [addToItems, if_neg hp, pairQty, List.filter_cons, hpair] at *
      simpa using ih

/-- C7: `addItem` with a pair already present merges into the existing line
(quantities add, no new line); with a fresh pair it appends the new line;
in both cases exactly one line for the pair remains and the totals are
recomputed. -/
theorem addItem_spec (c : Cart) (d : CartItem) (hInv : c.Inv)
    (hd : d.validB = true)
    (hdup : pairCount c.items d.productId d.variantId ≤ 1) :
    ∃ c', c.addItem d = .ok c' ∧
      c'.items = addToItems c.items d ∧
      pairCount c'.items d.productId d.variantId = 1 ∧
      pairQty c'.items d.productId d.variantId =
        pairQty c.items d.productId d.variantId + d.quantity ∧
      (pairCount c.items d.productId d.variantId = 0 → c'.items = c.items ++ [d]) ∧
      (pairCount c.items d.productId d.variantId = 1 →
        c'.items.length = c.items.length) ∧
      c'.subtotal = itemsSum c'.items ∧ c'.total = c'.subtotal - c'.discount ∧
      c'.discount = c.discount ∧ c'.promoCode = c.promoCode := by
  obtain ⟨hsub0, hdisc0, htot0, hitems⟩ := (cartValidB_iff c).mp hInv.1
  have hbounds := Inv.bounds c hInv
  have hyitems : ∀ it ∈ addToItems c.items d, it.validB = true :=
    addToItems_all_valid c.items d hitems hd
  have hsum : itemsSum c.items ≤ itemsSum (addToItems c.items d) :=
    itemsSum_addToItems_ge c.items d hitems hd
  have htot : c.discount ≤ itemsSum (addToItems c.items d) := by
    have := hbounds.2.2.2
    rw [hInv.2.1] at this
    linarith
  have hvB : (Cart.calculateTotals { c with items := addToItems c.items d }).validB = true :=
    calc_validB { c with items := addToItems c.items d } hyitems hdisc0 htot
  refine ⟨_, save_calc_ok _ hvB, rfl, ?_, pairQty_addToItems c.items d, ?_, ?_, ?_, ?_, rfl, rfl⟩
  · show pairCount (addToItems c.items d) d.productId d.variantId = 1
    by_cases h0 : pairCount c.items d.productId d.variantId = 0
    · rw [addToItems_of_absent _ _ h0, pairCount_append_single, h0]
    · rw [(pairCount_addToItems_of_present _ _ h0).1]
      omega
  · intro h0
    show addToItems c.items d = c.items ++ [d]
    exact addToItems_of_absent _ _ h0
  · intro h1
    show (addToItems c.items d).length = c.items.length
    exact (pairCount_addToItems_of_present _ _ (by omega)).2
  · exact (calculateTotals_consistent _).1
  · exact (calculateTotals_consistent _).2

theorem updItems_none_iff (items : List CartItem) (pid vid : String) (q : ℤ) :
    updItems items pid vid q = none ↔ pairCount items pid vid = 0 := by
  induction items with
  | nil => simp [updItems, pairCount]
  | cons it rest ih =>
    by_cases hp : it.productId = pid ∧ it.variantId = vid
    · have hpair : isPair pid vid it = true := by
        simp [isPair, hp.1, hp.2]
      simp [updItems, if_pos hp, pairCount, List.filter_cons, hpair]
    · have hpair : isPair pid vid it = false := by
        simp only [isPair, decide_eq_false_iff_not]
        exact hp
      simp only [updItems, if_neg hp, pairCount, List.filter_cons, hpair,
        Bool.false_eq_true, if_false, Option.map_eq_none']
      exact ih

theorem pairQty_eq_zero_of_count_zero (items : List CartItem) (pid vid : String)
    (h : pairCount items pid vid = 0) : pairQty items pid vid = 0 := by
  unfold pairCount at h
  unfold pairQty
  rw [List.length_eq_zero] at h
  rw [h]
  simp

theorem updItems_all_valid (items : List CartItem) (pid vid : String) (q : ℤ)
    (items' : List CartItem) (h : updItems items pid vid q = some items')
    (hv : ∀ x ∈ items, x.validB = true) : ∀ x ∈ items', x.validB = true := by
  induction items generalizing items' with
  | nil => simp [updItems] at h
  | cons it rest ih =>
    by_cases hp : it.productId = pid ∧ it.variantId = vid
    · simp only [updItems, if_pos hp, Option.some.injEq] at h
      subst h
      by_cases hq : q ≤ 0
      · rw [if_pos hq]
        exact fun x hx => hv x (List.mem_cons_of_mem it hx)
      · rw [if_neg hq]
        intro x hx
        rcases List.mem_cons.mp hx with h1 | h2
        · subst h1
          rw [itemValidB_iff]
          have := (itemValidB_iff it).mp (hv it (List.mem_cons_self it rest))
          refine ⟨?_, this.2⟩
          show 1 ≤ q
          omega
        · exact hv x (List.mem_cons_of_mem it h2)
    · simp only [updItems, if_neg hp] at h
      cases hrest : updItems rest pid vid q with
      | none => rw [hrest] at h; cases h
      | some items'' =>
        rw [hrest] at h
        simp only [Option.map_some', Option.some.injEq] at h
        subst h
        intro x hx
        rcases List.mem_cons.mp hx with h1 | h2
        · subst h1; exact hv x (List.mem_cons_self x rest)
        · exact ih items'' hrest (fun y hy => hv y (List.mem_cons_of_mem it hy)) x h2

theorem updItems_remove (items : List CartItem) (pid vid : String) (q : ℤ)
    (items' : List CartItem) (h : updItems items pid vid q = some items')
    (hq : q ≤ 0) (hdup : pairCount items pid vid ≤ 1) :
    pairCount items' pid vid = 0 ∧ items'.length + 1 = items.length := by
  induction items generalizing items' with
  | nil => simp [updItems] at h
  | cons it rest ih =>
    by_cases hp : it.productId = pid ∧ it.variantId = vid
    · have hpair : isPair pid vid it = true := by
        simp [isPair, hp.1, hp.2]
      simp only [updItems, if_pos hp, if_pos hq, Option.some.injEq] at h
      subst h
      have hcount : pairCount (it :: rest) pid vid = pairCount rest pid vid + 1 := by
        simp [pairCount, List.filter_cons, hpair]
      rw [hcount] at hdup
      exact ⟨by omega, by simp⟩
    · have hpair : isPair pid vid it = false := by
        simp only [isPair, decide_eq_false_iff_not]
        exact hp
      simp only [updItems, if_neg hp] at h
      cases hrest : updItems rest pid vid q with
      | none => rw [hrest] at h; cases h
      | some items'' =>
        rw [hrest] at h
        simp only [Option.map_some', Option.some.injEq] at h
        subst h
        have hdup' : pairCount rest pid vid ≤ 1 := by
          unfold pairCount at hdup ⊢
          rw [List.filter_cons, if_neg (by simp [hpair])] at hdup
          exact hdup
        have := ih items'' hrest hdup'
        constructor
        · unfold pairCount at this ⊢
          rw [List.filter_cons, if_neg (by simp [hpair])]
          exact this.1
        · simp only [List.length_cons]
          omega

theorem updItems_set (items : List CartItem) (pid vid : String) (q : ℤ)
    (items' : List CartItem) (h : updItems items pid vid q = some items')
    (hq : ¬ q ≤ 0) (hdup : pairCount items pid vid ≤ 1) :
    pairQty items' pid vid = q ∧ items'.length = items.length := by
  induction items generalizing items' with
  | nil => simp [updItems] at h
  | cons it rest ih =>
    by_cases hp : it.productId = pid ∧ it.variantId = vid
    · have hpair : isPair pid vid it = true := by
        simp [isPair, hp.1, hp.2]
      have hpair' : isPair pid vid { it with quantity := q } = true := by
        simp [isPair, hp.1, hp.2]
      simp only [updItems, if_pos hp, if_neg hq, Option.some.injEq] at h
      subst h
      have hcrest : pairCount rest pid vid = 0 := by
        unfold pairCount at hdup ⊢
        rw [List.filter_cons, if_pos (by simp [hpair])] at hdup
        simp only [List.length_cons] at hdup
        omega
      constructor
      · have hz := pairQty_eq_zero_of_count_zero rest pid vid hcrest
        unfold pairQty at hz ⊢
        rw [List.filter_cons, if_pos (by simp [hpair'])]
        simp only [List.map_cons, List.sum_cons]
        rw [hz]
        simp
      · simp
    · have hpair : isPair pid vid it = false := by
        simp only [isPair, decide_eq_false_iff_not]
        exact hp
      simp only [updItems, if_neg hp] at h
      cases hrest : updItems rest pid vid q with
      | none => rw [hrest] at h; cases h
      | some items'' =>
        rw [hrest] at h
        simp only [Option.map_some', Option.some.injEq] at h
        subst h
        have hdup' : pairCount rest pid vid ≤ 1 := by
          unfold pairCount at hdup ⊢
          rw [List.filter_cons, if_neg (by simp [hpair])] at hdup
          exact hdup
        have := ih items'' hrest hdup'
        constructor
        · unfold pairQty at this ⊢
          rw [List.filter_cons, if_neg (by simp [hpair])]
          exact this.1
        · simp only [List.length_cons]
          omega

/-- C8 (amended): `updateItemQuantity` on a missing pair throws `'Item not
found in cart'` and persists nothing; on a matching line it removes the line
(quantity ≤ 0) or overwrites its quantity (quantity ≥ 1) and recomputes
totals — provided the recomputed total stays nonnegative (the cart's
discount does not exceed the new subtotal), otherwise the save is rejected
by the schema validators. -/
theorem updateItemQuantity_spec (c : Cart) (pid vid : String) (q : ℤ)
    (hInv : c.Inv) (hdup : pairCount c.items pid vid ≤ 1) :
    (pairCount c.items pid vid = 0 →
      c.updateItemQuantity pid vid q = .error "Item not found in cart" ∧
      persistOp c (.updateItemQuantity pid vid q) = c) ∧
    (∀ items', updItems c.items pid vid q = some items' →
      c.discount ≤ itemsSum items' →
      ∃ c', c.updateItemQuantity pid vid q = .ok c' ∧ c'.items = items' ∧
        (q ≤ 0 → pairCount c'.items pid vid = 0 ∧
          c'.items.length + 1 = c.items.length) ∧
        (1 ≤ q → pairQty c'.items pid vid = q ∧
          c'.items.length = c.items.length) ∧
        c'.subtotal = itemsSum c'.items ∧ c'.total = c'.subtotal - c'.discount ∧
        c'.discount = c.discount ∧ c'.promoCode = c.promoCode) := by
  constructor
  · intro h0
    have hnone := (updItems_none_iff c.items pid vid q).mpr h0
    constructor
    · unfold Cart.updateItemQuantity
      rw [hnone]
    · simp only [persistOp, CartOp.run, Cart.updateItemQuantity, hnone]
  · intro items' hsome hdisc'
    obtain ⟨hsub0, hdisc0, htot0, hitems⟩ := (cartValidB_iff c).mp hInv.1
    have hvalid' : ∀ x ∈ items', x.validB = true :=
      updItems_all_valid _ _ _ _ _ hsome hitems
    have hvB : (Cart.calculateTotals { c with items := items' }).validB = true :=
      calc_validB _ hvalid' hdisc0 hdisc'
    refine ⟨Cart.calculateTotals { c with items := items' }, ?_, rfl, ?_, ?_,
      (calculateTotals_consistent _).1, (calculateTotals_consistent _).2, rfl, rfl⟩
    · unfold Cart.updateItemQuantity
      rw [hsome]
      exact save_calc_ok _ hvB
    · intro hq
      exact updItems_remove _ _ _ _ _ hsome hq hdup
    · intro hq
      exact updItems_set _ _ _ _ _ hsome (by omega) hdup

/-- A cart holding one line (price 10, quantity 1) with a promo discount of
5 applied; it satisfies the cart invariant. -/
def discountedCart : Cart :=
  { id := "c3", token := "t3",
    items := [{ sampleItem with quantity := 1 }], promoCode := some "SAVE5",
    subtotal := 10, discount := 5, total := 5, expiresAt := 604800000 }

theorem updateItemQuantity_counterexample :
    discountedCart.Inv ∧
    pairCount discountedCart.items "p1" "v1" = 1 ∧
    discountedCart.updateItemQuantity "p1" "v1" 0 =
      .error "Cart validation failed" ∧
    (persistOp discountedCart (.updateItemQuantity "p1" "v1" 0)).items.length = 1 := by
  refine ⟨⟨?_, ?_, ?_⟩, ?_, ?_, ?_⟩
  · decide
  · norm_num [discountedCart, sampleItem, itemsSum]
  · norm_num [discountedCart]
  · decide
  · norm_num [discountedCart, sampleItem, Cart.updateItemQuantity, updItems,
      Cart.save, Cart.calculateTotals, Cart.validB, itemsSum]
  · norm_num [discountedCart, sampleItem, persistOp, CartOp.run,
      Cart.updateItemQuantity, updItems, Cart.save, Cart.calculateTotals,
      Cart.validB, itemsSum]

/-- A one-line cart without any discount. -/
def cartOne : Cart :=
  { id := "c2", token := "t2", items := [sampleItem], promoCode := none,
    subtotal := 20, discount := 0, total := 20, expiresAt := 604800000 }

theorem cartOne_Inv : cartOne.Inv := by
  refine ⟨by decide, ?_, ?_⟩
  · norm_num [cartOne, sampleItem, itemsSum]
  · norm_num [cartOne]

theorem updateItemQuantity_spec_witness :
    (cartOne.Inv ∧ pairCount cartOne.items "p1" "v1" ≤ 1 ∧
      updItems cartOne.items "p1" "v1" 0 = some [] ∧
      cartOne.discount ≤ itemsSum []) ∧
    ∃ c', cartOne.updateItemQuantity "p1" "v1" 0 = .ok c' ∧ c'.items = [] := by
  have hdup : pairCount cartOne.items "p1" "v1" ≤ 1 := by decide
  have hsome : updItems cartOne.items "p1" "v1" 0 = some [] := by decide
  have hdisc : cartOne.discount ≤ itemsSum [] := by
    norm_num [cartOne, itemsSum]
  obtain ⟨c', h1, h2, _⟩ :=
    (updateItemQuantity_spec cartOne "p1" "v1" 0 cartOne_Inv hdup).2 [] hsome hdisc
  exact ⟨⟨cartOne_Inv, hdup, hsome, hdisc⟩, c', h1, h2⟩

/-- A line for the pair already in `cartOne`, added again with quantity 3. -/
def repeatItem : CartItem := { sampleItem with quantity := 3 }

theorem addItem_spec_witness :
    (cartOne.Inv ∧ repeatItem.validB = true ∧
      pairCount cartOne.items repeatItem.productId repeatItem.variantId ≤ 1) ∧
    ∃ c', cartOne.addItem repeatItem = .ok c' ∧
      pairCount c'.items repeatItem.productId repeatItem.variantId = 1 ∧
      pairQty c'.items repeatItem.productId repeatItem.variantId =
        pairQty cartOne.items repeatItem.productId repeatItem.variantId +
          repeatItem.quantity := by
  have hd : repeatItem.validB = true := by decide
  have hdup : pairCount cartOne.items repeatItem.productId repeatItem.variantId ≤ 1 := by
    decide
  obtain ⟨c', h1, _, h3, h4, _⟩ := addItem_spec cartOne repeatItem cartOne_Inv hd hdup
  exact ⟨⟨cartOne_Inv, hd, hdup⟩, c', h1, h3, h4⟩

/-! ### Order lifecycle (order schema and methods in src/src/models/Order.ts) -/

/-- The `status` enum of the order schema. -/
inductive OrderStatus where
  | pending
  | confirmed
  | shipped
  | delivered
  | cancelled
deriving DecidableEq, Repr

/-- The `paymentStatus` enum of the order schema. -/
inductive PaymentStatus where
  | pending
  | paid
  | failed
  | refunded
deriving DecidableEq, Repr

/-- The `paymentMethod` enum of the order schema. -/
inductive PaymentMethod where
  | credit_card
  | paypal
  | stripe
deriving DecidableEq, Repr

/-- An order document (the fields of `orderSchema` that the core logic
reads or writes; the generated `orderNumber` and the customer/address
payload are opaque strings copied from the request). -/
structure Order where
  cartId : String
  items : List CartItem
  subtotal : ℚ
  discount : ℚ
  total : ℚ
  promoCode : Option String
  status : OrderStatus
  paymentMethod : PaymentMethod
  paymentStatus : PaymentStatus
  trackingNumber : Option String
  notes : Option String
deriving DecidableEq, Repr

/-- `orderSchema.methods.updateStatus`: assigns `status`, and assigns
`trackingNumber` / `notes` only when the argument is truthy (present and
non-empty), exactly as `if (trackingNumber) this.trackingNumber = ...`. -/
def Order.updateStatus (o : Order) (status : OrderStatus)
    (trackingNumber notes : Option String) : Order :=
  { o with
    status := status
    trackingNumber := if truthyS trackingNumber then trackingNumber else o.trackingNumber
    notes := if truthyS notes then notes else o.notes }

/-- `orderSchema.methods.updatePaymentStatus`. -/
def Order.updatePaymentStatus (o : Order) (ps : PaymentStatus) : Order :=
  { o with paymentStatus := ps }

/-- C9: `updateStatus` succeeds from any current status and
`updatePaymentStatus` from any current payment status (no transition graph);
each assigns only its addressed fields — items, subtotal, discount, total,
promoCode and the respective other status field are untouched, and no
derived totals are recalculated. -/
theorem order_status_frame (o : Order) (s : OrderStatus)
    (tn notes : Option String) (p : PaymentStatus) :
    ((o.updateStatus s tn notes).status = s ∧
     (o.updateStatus s tn notes).items = o.items ∧
     (o.updateStatus s tn notes).subtotal = o.subtotal ∧
     (o.updateStatus s tn notes).discount = o.discount ∧
     (o.updateStatus s tn notes).total = o.total ∧
     (o.updateStatus s tn notes).promoCode = o.promoCode ∧
     (o.updateStatus s tn notes).paymentStatus = o.paymentStatus ∧
     (o.updateStatus s tn notes).paymentMethod = o.paymentMethod) ∧
    ((o.updatePaymentStatus p).paymentStatus = p ∧
     (o.updatePaymentStatus p).items = o.items ∧
     (o.updatePaymentStatus p).subtotal = o.subtotal ∧
     (o.updatePaymentStatus p).discount = o.discount ∧
     (o.updatePaymentStatus p).total = o.total ∧
     (o.updatePaymentStatus p).promoCode = o.promoCode ∧
     (o.updatePaymentStatus p).status = o.status ∧
     (o.updatePaymentStatus p).trackingNumber = o.trackingNumber ∧
     (o.updatePaymentStatus p).notes = o.notes) :=
  ⟨⟨rfl, rfl, rfl, rfl, rfl, rfl, rfl, rfl⟩,
   ⟨rfl, rfl, rfl, rfl, rfl, rfl, rfl, rfl, rfl⟩⟩

/-- C10: an omitted (`none`) or empty (`""`) `trackingNumber` or `notes`
argument leaves the stored value unchanged — `updateStatus` can set but
never clear these fields. -/
theorem updateStatus_never_clears (o : Order) (s : OrderStatus)
    (tn notes : Option String) :
    (tn = none ∨ tn = some "" → (o.updateStatus s tn notes).trackingNumber = o.trackingNumber) ∧
    (notes = none ∨ notes = some "" → (o.updateStatus s tn notes).notes = o.notes) := by
  constructor
  · intro h
    have ht : truthyS tn = false := by
      rcases h with h | h <;> subst h <;> simp [truthyS]
    show (if truthyS tn then tn else o.trackingNumber) = o.trackingNumber
    rw [ht]
    simp
  · intro h
    have ht : truthyS notes = false := by
      rcases h with h | h <;> subst h <;> simp [truthyS]
    show (if truthyS notes then notes else o.notes) = o.notes
    rw [ht]
    simp

/-- A sample order for witnesses. -/
def sampleOrder : Order :=
  { cartId := "c1", items := [sampleItem], subtotal := 20, discount := 5,
    total := 15, promoCode := some "SAVE5", status := .pending,
    paymentMethod := .paypal, paymentStatus := .pending,
    trackingNumber := some "TRK1", notes := some "leave at door" }

theorem updateStatus_never_clears_witness :
    (none = (none : Option String) ∨ none = some "") ∧
    (some "" = (none : Option String) ∨ some "" = some "") ∧
    (sampleOrder.updateStatus .shipped none (some "")).trackingNumber =
      sampleOrder.trackingNumber ∧
    (sampleOrder.updateStatus .shipped none (some "")).notes = sampleOrder.notes :=
  ⟨Or.inl rfl, Or.inr rfl,
   (updateStatus_never_clears sampleOrder .shipped none (some "")).1 (Or.inl rfl),
   (updateStatus_never_clears sampleOrder .shipped none (some "")).2 (Or.inr rfl)⟩

/-! ### PromoEngine theorems (C4, C5) -/

/-- C5: `calculateDiscount` is pure and deterministic — its method body only
reads the promo record, so the stateful embedding returns the record
unchanged, and re-running it on the returned state with the same subtotal
and time yields the same number. -/
theorem calculateDiscount_pure (p : PromoCode) (s : ℚ) (t : ℤ) :
    (p.calculateDiscountSt s t).2 = p ∧
    ((p.calculateDiscountSt s t).2.calculateDiscountSt s t).1 =
      (p.calculateDiscountSt s t).1 :=
  ⟨rfl, rfl⟩

theorem calculateDiscount_bounds (p : PromoCode) (s : ℚ) (t : ℤ)
    (hs : 0 ≤ s) (hval : 0 ≤ p.value) (hmaxd : ∀ d ∈ p.maxDiscount, 0 ≤ d) :
    0 ≤ p.calculateDiscount s t ∧ p.calculateDiscount s t ≤ s := by
  unfold PromoCode.calculateDiscount
  by_cases h1 : p.isValidAt t
  · rw [h1]
    simp only [Bool.not_true, Bool.false_eq_true, if_false]
    by_cases h2 : (truthyQ p.minOrderAmount && decide (s < p.minOrderAmount.getD 0)) = true
    · rw [if_pos h2]
      exact ⟨le_refl 0, hs⟩
    · rw [if_neg h2]
      have hraw : 0 ≤ (if p.type = .percentage then s * p.value / 100 else p.value) := by
        by_cases ht : p.type = .percentage
        · rw [if_pos ht]
          positivity
        · rw [if_neg ht]
          exact hval
      have hclamp :
          0 ≤ (if truthyQ p.maxDiscount then
                min (if p.type = .percentage then s * p.value / 100 else p.value)
                  (p.maxDiscount.getD 0)
              else (if p.type = .percentage then s * p.value / 100 else p.value)) := by
        by_cases hm : truthyQ p.maxDiscount = true
        · rw [if_pos hm]
          have hmd : 0 ≤ p.maxDiscount.getD 0 := by
            cases hmd' : p.maxDiscount with
            | none => simp [truthyQ, hmd'] at hm
            | some d =>
              have := hmaxd d (by rw [hmd']; rfl)
              simp [hmd', this]
          exact le_min hraw hmd
        · rw [if_neg hm]
          exact hraw
      exact ⟨le_min hclamp hs, min_le_right _ _⟩
  · rw [Bool.not_eq_true] at h1
    rw [h1]
    simp only [Bool.not_false, if_true]
    exact ⟨le_refl 0, hs⟩

/-- C4 (amended): `calculateDiscount` returns `0` when the promo is invalid
at `now` or below a truthy `minOrderAmount`; otherwise it returns the raw
discount clamped to `maxDiscount` when `maxDiscount` is set *and nonzero*
(a stored `maxDiscount` of `0` is falsy in JavaScript and applies no cap)
and then to the subtotal; under the schema constraints the validity test
agrees with "`maxUses` unset or `usedCount < maxUses`", and the result
always lies in `[0, subtotal]`. -/
theorem calculateDiscount_spec (p : PromoCode) (s : ℚ) (t : ℤ)
    (hs : 0 ≤ s) (hv : p.schemaValid) :
    (p.isValidAt t = true ↔
      (p.isActive = true ∧ p.validFrom ≤ t ∧ t ≤ p.validTo ∧
        (p.maxUses = none ∨ p.usedCount < p.maxUses.getD 0))) ∧
    (p.isValidAt t = false → p.calculateDiscount s t = 0) ∧
    (truthyQ p.minOrderAmount = true → s < p.minOrderAmount.getD 0 →
      p.calculateDiscount s t = 0) ∧
    (p.isValidAt t = true →
      (truthyQ p.minOrderAmount = true → p.minOrderAmount.getD 0 ≤ s) →
      p.calculateDiscount s t =
        min (if truthyQ p.maxDiscount then
               min (if p.type = .percentage then s * p.value / 100 else p.value)
                 (p.maxDiscount.getD 0)
             else (if p.type = .percentage then s * p.value / 100 else p.value)) s) ∧
    0 ≤ p.calculateDiscount s t ∧ p.calculateDiscount s t ≤ s := by
  obtain ⟨hval, hmaxd, hmino, hmaxu⟩ := hv
  refine ⟨?_, ?_, ?_, ?_, calculateDiscount_bounds p s t hs hval hmaxd⟩
  · unfold PromoCode.isValidAt
    simp only [Bool.and_eq_true, decide_eq_true_eq, Bool.or_eq_true,
      Bool.not_eq_true']
    constructor
    · rintro ⟨⟨⟨ha, h1⟩, h2⟩, h3⟩
      refine ⟨ha, h1, h2, ?_⟩
      rcases h3 with h3 | h3
      · cases hm : p.maxUses with
        | none => exact Or.inl rfl
        | some n =>
          exfalso
          have := hmaxu n (by rw [hm]; rfl)
          rw [hm] at h3
          simp [truthyN] at h3
          omega
      · exact Or.inr h3
    · rintro ⟨ha, h1, h2, h3⟩
      refine ⟨⟨⟨ha, h1⟩, h2⟩, ?_⟩
      rcases h3 with h3 | h3
      · left
        rw [h3]
        rfl
      · right
        simpa using h3
  · intro h1
    unfold PromoCode.calculateDiscount
    rw [h1]
    rfl
  · intro h1 h2
    unfold PromoCode.calculateDiscount
    by_cases hvt : p.isValidAt t
    · rw [hvt]
      simp only [Bool.not_true, Bool.false_eq_true, if_false]
      rw [if_pos (by rw [h1]; simpa using h2)]
    · rw [Bool.not_eq_true] at hvt
      rw [hvt]
      rfl
  · intro h1 h2
    unfold PromoCode.calculateDiscount
    rw [h1]
    simp only [Bool.not_true, Bool.false_eq_true, if_false]
    rw [if_neg ?_]
    by_cases hm : truthyQ p.minOrderAmount = true
    · have := h2 hm
      simp [hm, not_lt.mpr this]
    · simp [hm]

/-- A promo whose stored `maxDiscount` is the (schema-legal) value `0`. -/
def zeroCapPromo : PromoCode :=
  { code := "ZCAP", type := .percentage, value := 10, maxDiscount := some 0,
    minOrderAmount := none, validFrom := 0, validTo := 1000, maxUses := none,
    usedCount := 0, isActive := true }

theorem calculateDiscount_counterexample :
    zeroCapPromo.maxDiscount = some 0 ∧ zeroCapPromo.schemaValid ∧
    zeroCapPromo.calculateDiscount 100 5 = 10 ∧
    claimedDiscount zeroCapPromo 100 5 = 0 := by
  refine ⟨rfl, by decide, ?_, ?_⟩
  · norm_num [PromoCode.calculateDiscount, PromoCode.isValidAt, zeroCapPromo,
      truthyQ, truthyN]
  · norm_num [claimedDiscount, zeroCapPromo]

/-- The §8 example promo: 20% with a cap of 15 and a minimum order of 50. -/
def samplePromo : PromoCode :=
  { code := "SAVE20", type := .percentage, value := 20, maxDiscount := some 15,
    minOrderAmount := some 50, validFrom := 0, validTo := 1000000,
    maxUses := some 100, usedCount := 3, isActive := true }

theorem calculateDiscount_spec_witness :
    ((0 : ℚ) ≤ 100 ∧ samplePromo.schemaValid) ∧
    (0 ≤ samplePromo.calculateDiscount 100 500 ∧
      samplePromo.calculateDiscount 100 500 ≤ 100) ∧
    samplePromo.calculateDiscount 100 500 = 15 := by
  have h := calculateDiscount_spec samplePromo 100 500 (by norm_num) (by decide)
  refine ⟨⟨by norm_num, by decide⟩, h.2.2.2.2, ?_⟩
  norm_num [PromoCode.calculateDiscount, PromoCode.isValidAt, samplePromo,
    truthyQ, truthyN]

/-! ### Product (src/src/models/Product.ts)

Variants are embedded subdocuments addressed by their generated `_id`
(`this.variants.id(variantId)` returns the first subdocument with that id).
-/

/-- A product variant subdocument. -/
structure Variant where
  id : String
  name : String
  sku : String
  price : ℚ
  stock : ℤ
deriving DecidableEq, Repr

/-- A product document. -/
structure Product where
  id : String
  name : String
  isActive : Bool
  variants : List Variant
deriving DecidableEq, Repr

/-- `this.variants.id(variantId)`: first variant with the given id. -/
def Product.findVariant (p : Product) (vid : String) : Option Variant :=
  p.variants.find? fun v => v.id = vid

/-- `productSchema.methods.isInStock`:
`variant ? variant.stock >= quantity : false`. -/
def Product.isInStock (p : Product) (vid : String) (q : ℤ) : Bool :=
  match p.findVariant vid with
  | none => false
  | some v => decide (q ≤ v.stock)

/-- Decrement the stock of the first variant with the given id. -/
def decVariant (vs : List Variant) (vid : String) (q : ℤ) : List Variant :=
  match vs with
  | [] => []
  | v :: rest =>
    if v.id = vid then { v with stock := v.stock - q } :: rest
    else v :: decVariant rest vid q

/-- `productSchema.methods.updateStock`: throws `'Variant not found'` when
the id resolves no variant and `'Insufficient stock'` when the live stock is
below the requested quantity, else decrements and saves. -/
def Product.updateStock (p : Product) (vid : String) (q : ℤ) :
    Except String Product :=
  match p.findVariant vid with
  | none => .error "Variant not found"
  | some v =>
    if v.stock < q then .error "Insufficient stock"
    else .ok { p with variants := decVariant p.variants vid q }

/-! ### Checkout routes (src/src/routes/checkout.ts)

The document store is a quadruple of collections; lookups are first-match
(`findOne` / `findById`), and a `save()` writes back over the first document
carrying the same id (ids are unique in the store). -/

/-- The relevant state of the document store. -/
structure DB where
  carts : List Cart
  products : List Product
  promos : List PromoCode
  orders : List Order
deriving DecidableEq, Repr

/-- `Cart.findOne({ _id, expiresAt: { $gt: now } })`. -/
def findCart (carts : List Cart) (cid : String) (now : ℤ) : Option Cart :=
  carts.find? fun c => decide (c.id = cid) && decide (now < c.expiresAt)

/-- `Product.findById`. -/
def findProduct (ps : List Product) (pid : String) : Option Product :=
  ps.find? fun p => p.id = pid

/-- JS `toUpperCase()` (also the schema's `uppercase: true` setter):
character-wise uppercasing of the string. -/
def upper (s : String) : String :=
  String.mk (s.data.map Char.toUpper)

/-- First-match lookup of a promo code by its stored (uppercase) code. -/
def findPromo (promos : List PromoCode) (code : String) : Option PromoCode :=
  promos.find? fun p => p.code = code

/-- The query of the static `findValidPromoCode`: exact uppercase code,
active, inside the validity window, and `maxUses` absent (`$exists: false`)
or `usedCount < maxUses` (a numeric `$expr`, not a truthiness test). -/
def promoQueryMatch (code : String) (now : ℤ) (p : PromoCode) : Bool :=
  decide (p.code = upper code) && p.isActive &&
    decide (p.validFrom ≤ now) && decide (now ≤ p.validTo) &&
    (p.maxUses.isNone || decide (p.usedCount < p.maxUses.getD 0))

/-- `PromoCode.findValidPromoCode(code, subtotal)`: run the query, then
reject the hit when a truthy `minOrderAmount` exceeds the subtotal. -/
def findValidPromoCode (promos : List PromoCode) (code : String)
    (subtotal : ℚ) (now : ℤ) : Option PromoCode :=
  match promos.find? (promoQueryMatch code now) with
  | none => none
  | some p =>
    if truthyQ p.minOrderAmount && decide (subtotal < p.minOrderAmount.getD 0) then none
    else some p

/-- Write a saved cart back over the first stored cart with the same id. -/
def replaceCart (cs : List Cart) (c' : Cart) : List Cart :=
  match cs with
  | [] => []
  | c :: rest => if c.id = c'.id then c' :: rest else c :: replaceCart rest c'

/-- Write a saved product back over the first stored product with the same
id. -/
def replaceProduct (ps : List Product) (p' : Product) : List Product :=
  match ps with
  | [] => []
  | p :: rest => if p.id = p'.id then p' :: rest else p :: replaceProduct rest p'

/-- The checkout request payload (the parts the core logic reads). -/
structure CheckoutReq where
  cartId : String
  promoCode : Option String
  paymentMethod : PaymentMethod
deriving DecidableEq, Repr

/-- The responses of `POST /api/checkout`. -/
inductive CheckoutResp where
  | cartNotFound
  | emptyCart
  | productUnavailable (productName : String)
  | insufficientStock (productName variantName : String)
  | invalidPromo
  | internalError
  | created (o : Order)
deriving DecidableEq, Repr

/-- The per-line availability test of checkout step 3. -/
def lineGood (ps : List Product) (it : CartItem) : Bool :=
  match findProduct ps it.productId with
  | none => false
  | some p => p.isActive && p.isInStock it.variantId it.quantity

/-- The stock-validation loop of `POST /`: returns the first failing line's
error response, `none` when every line passes. -/
def stockCheck (ps : List Product) (items : List CartItem) :
    Option CheckoutResp :=
  match items with
  | [] => none
  | it :: rest =>
    match findProduct ps it.productId with
    | none => some (.productUnavailable it.productName)
    | some p =>
      if !p.isActive then some (.productUnavailable it.productName)
      else if !p.isInStock it.variantId it.quantity then
        some (.insufficientStock it.productName it.variantName)
      else stockCheck ps rest

/-- The promo step (step 4): with a truthy supplied code, re-resolve and
re-validate it against the cart's current subtotal and compute the
authoritative discount; otherwise fall back to the discount recorded on the
cart.  `none` is the `InvalidPromo` failure. -/
def promoStep (promos : List PromoCode) (promoCode : Option String)
    (subtotal discount : ℚ) (now : ℤ) : Option ℚ :=
  if truthyS promoCode then
    match findValidPromoCode promos (promoCode.getD "") subtotal now with
    | none => none
    | some promo => some (promo.calculateDiscount subtotal now)
  else some discount

/-- The stock-update loop of step 6: each line re-fetches its product from
the current store (`if (product)` skips a vanished one silently) and calls
`updateStock`, which throws on insufficiency; a throw aborts the loop and
bubbles to the handler's catch-all, leaving the earlier decrements
persisted.  Returns the updated products and whether a throw occurred. -/
def updStockAll (ps : List Product) (items : List CartItem) :
    List Product × Bool :=
  match items with
  | [] => (ps, false)
  | it :: rest =>
    match findProduct ps it.productId with
    | none => updStockAll ps rest
    | some p =>
      match p.updateStock it.variantId it.quantity with
      | .error _ => (ps, true)
      | .ok p' => updStockAll (replaceProduct ps p') rest

/-- Increment `usedCount` of the first promo stored under the code (the
schema's `uppercase` setter normalizes the query value, so the caller
passes the uppercased code). -/
def incPromoUsage (promos : List PromoCode) (code : String) : List PromoCode :=
  match promos with
  | [] => []
  | p :: rest =>
    if p.code = code then p.incrementUsage :: rest
    else p :: incPromoUsage rest code

/-- `POST /api/checkout`: the full handler over the store.  Order documents
always pass their schema validators here because the cart invariant and the
discount bounds keep `subtotal`, `discount` and `total` nonnegative, so
`order.save()` is modeled as the plain append it performs.  A throw inside
the stock loop hits the handler's catch (`500`), after the order was already
persisted — the non-atomicity the spec flags in §5. -/
def checkoutPost (db : DB) (req : CheckoutReq) (now : ℤ) : CheckoutResp × DB :=
  match findCart db.carts req.cartId now with
  | none => (.cartNotFound, db)
  | some cart =>
    if cart.items.isEmpty then (.emptyCart, db)
    else
      match stockCheck db.products cart.items with
      | some err => (err, db)
      | none =>
        match promoStep db.promos req.promoCode cart.subtotal cart.discount now with
        | none => (.invalidPromo, db)
        | some finalDiscount =>
          let order : Order :=
            { cartId := cart.id, items := cart.items, subtotal := cart.subtotal,
              discount := finalDiscount, total := cart.subtotal - finalDiscount,
              promoCode := if truthyS req.promoCode then req.promoCode else cart.promoCode,
              status := .pending, paymentMethod := req.paymentMethod,
              paymentStatus := .pending, trackingNumber := none, notes := none }
          let db1 : DB := { db with orders := db.orders ++ [order] }
          let upd := updStockAll db1.products cart.items
          let db2 : DB := { db1 with products := upd.1 }
          if upd.2 then (.internalError, db2)
          else
            let db3 : DB :=
              if truthyS req.promoCode then
                { db2 with promos := incPromoUsage db2.promos (upper (req.promoCode.getD "")) }
              else db2
            match cart.clearCart with
            | .ok cleared => (.created order, { db3 with carts := replaceCart db3.carts cleared })
            | .error _ => (.internalError, db3)

/-- The per-line problem collector of `POST /validate` (a missing or
inactive product short-circuits the line's stock check via `continue`). -/
def lineProblem (ps : List Product) (it : CartItem) : Option String :=
  match findProduct ps it.productId with
  | none => some ("Product " ++ it.productName ++ " is no longer available")
  | some p =>
    if !p.isActive then some ("Product " ++ it.productName ++ " is no longer available")
    else if !p.isInStock it.variantId it.quantity then
      some ("Insufficient stock for " ++ it.productName ++ " - " ++ it.variantName)
    else none

/-- The error-collecting loop of `POST /validate`. -/
def collectItemErrors (ps : List Product) : List CartItem → List String
  | [] => []
  | it :: rest =>
    match lineProblem ps it with
    | some msg => msg :: collectItemErrors ps rest
    | none => collectItemErrors ps rest

/-- `POST /api/checkout/validate`: resolves the cart, collects every stock
problem and a promo problem without failing fast, and reports
`isValid = errors.length === 0`; the handler performs no writes, so the
store comes back unchanged. -/
def validatePost (db : DB) (req : CheckoutReq) (now : ℤ) :
    Option (Bool × List String) × DB :=
  match findCart db.carts req.cartId now with
  | none => (none, db)
  | some cart =>
    let itemErrors := collectItemErrors db.products cart.items
    let promoErrors :=
      if truthyS req.promoCode then
        match findValidPromoCode db.promos (req.promoCode.getD "") cart.subtotal now with
        | none => ["Invalid or expired promo code"]
        | some _ => []
      else []
    let errors := itemErrors ++ promoErrors
    (some (errors.isEmpty, errors), db)

theorem collectItemErrors_eq_filterMap (ps : List Product) (items : List CartItem) :
    collectItemErrors ps items = items.filterMap (lineProblem ps) := by
  induction items with
  | nil => rfl
  | cons it rest ih =>
    unfold collectItemErrors
    rw [List.filterMap_cons]
    cases lineProblem ps it <;> simp [ih]

/-- C6 (amended): on a resolvable cart, the validate-only endpoint mutates
nothing, collects one problem per unavailable-product line and per
insufficient-stock line plus one for an invalid supplied promo code, and
returns `isValid` true exactly when the list is empty — but it performs no
`EmptyCart` check, so a cart with no lines contributes no problem. -/
theorem validate_spec (db : DB) (req : CheckoutReq) (now : ℤ) (cart : Cart)
    (hc : findCart db.carts req.cartId now = some cart) :
    ∃ isValid errors,
      validatePost db req now = (some (isValid, errors), db) ∧
      errors = cart.items.filterMap (lineProblem db.products) ++
        (if truthyS req.promoCode then
          match findValidPromoCode db.promos (req.promoCode.getD "") cart.subtotal now with
          | none => ["Invalid or expired promo code"]
          | some _ => []
        else []) ∧
      (isValid = true ↔ errors = []) ∧
      (cart.items = [] → cart.items.filterMap (lineProblem db.products) = []) := by
  have hev : validatePost db req now =
      (some ((collectItemErrors db.products cart.items ++
          (if truthyS req.promoCode then
            match findValidPromoCode db.promos (req.promoCode.getD "") cart.subtotal now with
            | none => ["Invalid or expired promo code"]
            | some _ => []
          else [])).isEmpty,
        collectItemErrors db.products cart.items ++
          (if truthyS req.promoCode then
            match findValidPromoCode db.promos (req.promoCode.getD "") cart.subtotal now with
            | none => ["Invalid or expired promo code"]
            | some _ => []
          else [])), db) := by
    unfold validatePost
    rw [hc]
  refine ⟨_, _, hev, ?_, ?_, ?_⟩
  · rw [collectItemErrors_eq_filterMap]
  · cases h : (collectItemErrors db.products cart.items ++
        (if truthyS req.promoCode then
          match findValidPromoCode db.promos (req.promoCode.getD "") cart.subtotal now with
          | none => ["Invalid or expired promo code"]
          | some _ => []
        else [])) with
    | nil => simp
    | cons a l => simp
  · intro h
    rw [h]
    rfl

/-- A store holding just the (expiry-valid) empty cart. -/
def emptyCartDB : DB :=
  { carts := [emptyCart], products := [], promos := [], orders := [] }

/-- A checkout request for the empty cart, without a promo code. -/
def noPromoReq : CheckoutReq :=
  { cartId := "c1", promoCode := none, paymentMethod := .paypal }

theorem validate_counterexample :
    emptyCart.items = [] ∧
    findCart emptyCartDB.carts noPromoReq.cartId 0 = some emptyCart ∧
    validatePost emptyCartDB noPromoReq 0 = (some (true, []), emptyCartDB) :=
  ⟨rfl, by decide, by decide⟩

/-- The variant and product the sample cart line references. -/
def vM : Variant := { id := "v1", name := "M", sku := "SKU1", price := 10, stock := 5 }

/-- An active product with a single in-stock variant. -/
def prodShirt : Product :=
  { id := "p1", name := "Shirt", isActive := true, variants := [vM] }

/-- A fixed-amount promo of 5 with generous limits. -/
def promoOk : PromoCode :=
  { code := "SAVE5", type := .fixed, value := 5, maxDiscount := none,
    minOrderAmount := none, validFrom := 0, validTo := 1000000,
    maxUses := some 10, usedCount := 0, isActive := true }

/-- A store where `cartOne` can check out. -/
def shopDB : DB :=
  { carts := [cartOne], products := [prodShirt], promos := [promoOk], orders := [] }

/-- A checkout request for `cartOne` supplying the promo code. -/
def promoReq : CheckoutReq :=
  { cartId := "c2", promoCode := some "SAVE5", paymentMethod := .stripe }

theorem validate_spec_witness :
    findCart shopDB.carts promoReq.cartId 5 = some cartOne ∧
    ∃ isValid errors, validatePost shopDB promoReq 5 = (some (isValid, errors), shopDB) := by
  have hc : findCart shopDB.carts promoReq.cartId 5 = some cartOne := by decide
  obtain ⟨isValid, errors, h1, -, -, -⟩ := validate_spec shopDB promoReq 5 cartOne hc
  exact ⟨hc, isValid, errors, h1⟩

theorem stockCheck_none_iff (ps : List Product) (items : List CartItem) :
    stockCheck ps items = none ↔ ∀ it ∈ items, lineGood ps it = true := by
  induction items with
  | nil => simp [stockCheck]
  | cons it rest ih =>
    constructor
    · intro h x hx
      unfold stockCheck at h
      cases hfp : findProduct ps it.productId with
      | none =>
        simp only [hfp] at h
        cases h
      | some p =>
        simp only [hfp] at h
        by_cases ha : (!p.isActive) = true
        · rw [if_pos ha] at h
          cases h
        · rw [if_neg ha] at h
          by_cases hs : (!p.isInStock it.variantId it.quantity) = true
          · rw [if_pos hs] at h
            cases h
          · rw [if_neg hs] at h
            have ha' : p.isActive = true := by
              revert ha
              cases p.isActive <;> simp
            have hs' : p.isInStock it.variantId it.quantity = true := by
              revert hs
              cases p.isInStock it.variantId it.quantity <;> simp
            rcases List.mem_cons.mp hx with rfl | hx'
            · unfold lineGood
              simp only [hfp, ha', hs']
              rfl
            · exact (ih.mp h) x hx'
    · intro h
      have hgood := h it (List.mem_cons_self it rest)
      unfold lineGood at hgood
      unfold stockCheck
      cases hfp : findProduct ps it.productId with
      | none =>
        simp only [hfp] at hgood
        cases hgood
      | some p =>
        simp only [hfp] at hgood
        simp only [Bool.and_eq_true] at hgood
        simp only [hfp]
        rw [if_neg (by simp [hgood.1]), if_neg (by simp [hgood.2])]
        exact ih.mpr fun x hx => h x (List.mem_cons_of_mem it hx)

theorem stockCheck_shape (ps : List Product) (items : List CartItem)
    (e : CheckoutResp) (h : stockCheck ps items = some e) :
    (∃ n, e = .productUnavailable n) ∨ ∃ pn vn, e = .insufficientStock pn vn := by
  induction items with
  | nil => simp [stockCheck] at h
  | cons it rest ih =>
    unfold stockCheck at h
    cases hfp : findProduct ps it.productId with
    | none =>
      simp only [hfp] at h
      cases h
      exact Or.inl ⟨it.productName, rfl⟩
    | some p =>
      simp only [hfp] at h
      by_cases ha : (!p.isActive) = true
      · rw [if_pos ha] at h
        cases h
        exact Or.inl ⟨it.productName, rfl⟩
      · rw [if_neg ha] at h
        by_cases hs : (!p.isInStock it.variantId it.quantity) = true
        · rw [if_pos hs] at h
          cases h
          exact Or.inr ⟨it.productName, it.variantName, rfl⟩
        · rw [if_neg hs] at h
          exact ih h

/-- C2: a checkout whose cart resolves and is non-empty but holds a line
with a missing/inactive product or with quantity above the live stock fails
with the first such line's `ProductUnavailable` / `InsufficientStock`
response, and the store — orders, carts, stock, promo counters — is
returned unchanged (the failure happens before any write). -/
theorem checkout_failure_no_mutation (db : DB) (req : CheckoutReq) (now : ℤ)
    (cart : Cart) (hc : findCart db.carts req.cartId now = some cart)
    (hne : cart.items ≠ [])
    (hbad : ∃ it ∈ cart.items, lineGood db.products it = false) :
    ∃ e, stockCheck db.products cart.items = some e ∧
      checkoutPost db req now = (e, db) ∧
      ((∃ n, e = .productUnavailable n) ∨ ∃ pn vn, e = .insufficientStock pn vn) := by
  have hsome : stockCheck db.products cart.items ≠ none := by
    intro h
    obtain ⟨it, hmem, hfalse⟩ := hbad
    rw [(stockCheck_none_iff db.products cart.items).mp h it hmem] at hfalse
    cases hfalse
  cases hsc : stockCheck db.products cart.items with
  | none => exact absurd hsc hsome
  | some e =>
    refine ⟨e, rfl, ?_, stockCheck_shape _ _ _ hsc⟩
    unfold checkoutPost
    simp only [hc]
    rw [if_neg ?hne']
    case hne' =>
      simp only [List.isEmpty_iff]
      exact hne
    simp only [hsc]

/-- `prodShirt` with its variant's live stock dropped to 1, below the
quantity 2 that `cartOne` holds. -/
def lowStockDB : DB :=
  { carts := [cartOne],
    products := [{ prodShirt with variants := [{ vM with stock := 1 }] }],
    promos := [], orders := [] }

/-- A promo-less checkout request for `cartOne`. -/
def plainReq : CheckoutReq :=
  { cartId := "c2", promoCode := none, paymentMethod := .credit_card }

theorem checkout_failure_witness :
    (findCart lowStockDB.carts plainReq.cartId 5 = some cartOne ∧
      cartOne.items ≠ [] ∧
      lineGood lowStockDB.products sampleItem = false) ∧
    ∃ e, checkoutPost lowStockDB plainReq 5 = (e, lowStockDB) := by
  have hc : findCart lowStockDB.carts plainReq.cartId 5 = some cartOne := by decide
  have hne : cartOne.items ≠ [] := by decide
  have hlg : lineGood lowStockDB.products sampleItem = false := by decide
  obtain ⟨e, -, h2, -⟩ :=
    checkout_failure_no_mutation lowStockDB plainReq 5 cartOne hc hne
      ⟨sampleItem, by decide, hlg⟩
  exact ⟨⟨hc, hne, hlg⟩, e, h2⟩

/-- Observed stock of the variant `(pid, vid)` in the store. -/
def getStock (ps : List Product) (pid vid : String) : Option ℤ :=
  match findProduct ps pid with
  | none => none
  | some p =>
    match p.findVariant vid with
    | none => none
    | some v => some v.stock

theorem findProduct_replace_self (ps : List Product) (pid : String)
    (p p' : Product) (h : findProduct ps pid = some p) (hid : p'.id = p.id) :
    findProduct (replaceProduct ps p') pid = some p' := by
  have hpid : p.id = pid := by simpa using List.find?_some h
  induction ps with
  | nil => simp [findProduct] at h
  | cons q rest ih =>
    unfold findProduct at h ⊢
    unfold replaceProduct
    by_cases hq : q.id = pid
    · rw [List.find?_cons_of_pos _ (by simp [hq])] at h
      cases h
      rw [if_pos (by simp [hid, hpid])]
      rw [List.find?_cons_of_pos _ (by simp [hid, hpid])]
    · rw [List.find?_cons_of_neg _ (by simp [hq])] at h
      rw [if_neg (by rw [hid, hpid]; exact hq)]
      rw [List.find?_cons_of_neg _ (by simp [hq])]
      exact ih h

theorem findProduct_replace_other (ps : List Product) (p' : Product)
    (pid : String) (hne : pid ≠ p'.id) :
    findProduct (replaceProduct ps p') pid = findProduct ps pid := by
  induction ps with
  | nil => rfl
  | cons q rest ih =>
    unfold replaceProduct findProduct
    by_cases hq : q.id = p'.id
    · rw [if_pos hq]
      rw [List.find?_cons_of_neg _ (by simp; exact fun h => hne h.symm),
        List.find?_cons_of_neg _ (by simp [hq]; exact fun h => hne h.symm)]
    · rw [if_neg hq]
      by_cases hq2 : q.id = pid
      · rw [List.find?_cons_of_pos _ (by simp [hq2]),
          List.find?_cons_of_pos _ (by simp [hq2])]
      · rw [List.find?_cons_of_neg _ (by simp [hq2]),
          List.find?_cons_of_neg _ (by simp [hq2])]
        exact ih

theorem find?_decVariant_self (vs : List Variant) (vid : String) (q : ℤ)
    (v : Variant) (h : vs.find? (fun x => x.id = vid) = some v) :
    (decVariant vs vid q).find? (fun x => x.id = vid) =
      some { v with stock := v.stock - q } := by
  induction vs with
  | nil => simp at h
  | cons w rest ih =>
    unfold decVariant
    by_cases hw : w.id = vid
    · rw [List.find?_cons_of_pos _ (by simp [hw])] at h
      cases h
      rw [if_pos hw]
      rw [List.find?_cons_of_pos _ (by simp [hw])]
    · rw [List.find?_cons_of_neg _ (by simp [hw])] at h
      rw [if_neg hw]
      rw [List.find?_cons_of_neg _ (by simp [hw])]
      exact ih h

theorem find?_decVariant_other (vs : List Variant) (vid : String) (q : ℤ)
    (vid2 : String) (hne : vid2 ≠ vid) :
    (decVariant vs vid q).find? (fun x => x.id = vid2) =
      vs.find? (fun x => x.id = vid2) := by
  induction vs with
  | nil => rfl
  | cons w rest ih =>
    unfold decVariant
    by_cases hw : w.id = vid
    · rw [if_pos hw]
      rw [List.find?_cons_of_neg _ (by simp [hw]; exact fun h => hne h.symm),
        List.find?_cons_of_neg _ (by simp [hw]; exact fun h => hne h.symm)]
    · rw [if_neg hw]
      by_cases hw2 : w.id = vid2
      · rw [List.find?_cons_of_pos _ (by simp [hw2]),
          List.find?_cons_of_pos _ (by simp [hw2])]
      · rw [List.find?_cons_of_neg _ (by simp [hw2]),
          List.find?_cons_of_neg _ (by simp [hw2])]
        exact ih

theorem updateStock_ok (p : Product) (vid : String) (q : ℤ) (v : Variant)
    (hfv : p.findVariant vid = some v) (hq : q ≤ v.stock) :
    p.updateStock vid q =
      .ok { p with variants := decVariant p.variants vid q } := by
  unfold Product.updateStock
  simp only [hfv]
  rw [if_neg (not_lt.mpr hq)]

theorem getStock_dec_self (ps : List Product) (pid vid : String) (q : ℤ)
    (p : Product) (v : Variant)
    (hfp : findProduct ps pid = some p) (hfv : p.findVariant vid = some v) :
    getStock (replaceProduct ps { p with variants := decVariant p.variants vid q })
      pid vid = some (v.stock - q) := by
  have hv' :
      ({ p with variants := decVariant p.variants vid q } : Product).findVariant vid =
        some { v with stock := v.stock - q } := by
    unfold Product.findVariant at hfv ⊢
    exact find?_decVariant_self _ _ _ _ hfv
  have hrepl := findProduct_replace_self ps pid p
    { p with variants := decVariant p.variants vid q } hfp rfl
  simp only [getStock, hrepl, hv']

theorem getStock_dec_other (ps : List Product) (pid vid : String) (q : ℤ)
    (p : Product) (hfp : findProduct ps pid = some p)
    (pid2 vid2 : String) (hne : ¬(pid2 = pid ∧ vid2 = vid)) :
    getStock (replaceProduct ps { p with variants := decVariant p.variants vid q })
      pid2 vid2 = getStock ps pid2 vid2 := by
  have hpid : p.id = pid := by simpa using List.find?_some hfp
  by_cases h1 : pid2 = pid
  · subst h1
    have h2 : vid2 ≠ vid := fun h => hne ⟨rfl, h⟩
    have hv' :
        ({ p with variants := decVariant p.variants vid q } : Product).findVariant vid2 =
          p.findVariant vid2 := by
      unfold Product.findVariant
      exact find?_decVariant_other _ _ _ _ h2
    have hrepl := findProduct_replace_self ps pid2 p
      { p with variants := decVariant p.variants vid q } hfp rfl
    simp only [getStock, hrepl, hv', hfp]
  · have hne' : pid2 ≠ ({ p with variants := decVariant p.variants vid q } : Product).id := by
      show pid2 ≠ p.id
      rw [hpid]
      exact h1
    simp only [getStock, findProduct_replace_other ps _ pid2 hne']

theorem lineGood_dec_other (ps : List Product) (pid vid : String) (q : ℤ)
    (p : Product) (hfp : findProduct ps pid = some p) (it2 : CartItem)
    (hne : ¬(it2.productId = pid ∧ it2.variantId = vid)) :
    lineGood (replaceProduct ps { p with variants := decVariant p.variants vid q })
      it2 = lineGood ps it2 := by
  have hpid : p.id = pid := by simpa using List.find?_some hfp
  by_cases h1 : it2.productId = pid
  · have h2 : it2.variantId ≠ vid := fun h => hne ⟨h1, h⟩
    have hv' :
        ({ p with variants := decVariant p.variants vid q } : Product).findVariant
            it2.variantId = p.findVariant it2.variantId := by
      unfold Product.findVariant
      exact find?_decVariant_other _ _ _ _ h2
    have hrepl := findProduct_replace_self ps pid p
      { p with variants := decVariant p.variants vid q } hfp rfl
    simp only [lineGood, h1, hrepl, hfp, Product.isInStock, hv']
  · have hne' : it2.productId ≠ ({ p with variants := decVariant p.variants vid q } : Product).id := by
      show it2.productId ≠ p.id
      rw [hpid]
      exact h1
    simp only [lineGood, findProduct_replace_other ps _ it2.productId hne']

theorem updateStock_ok_inv (p : Product) (vid : String) (q : ℤ) (p' : Product)
    (h : p.updateStock vid q = .ok p') :
    ∃ v, p.findVariant vid = some v ∧ ¬(v.stock < q) ∧
      p' = { p with variants := decVariant p.variants vid q } := by
  unfold Product.updateStock at h
  cases hfv : p.findVariant vid with
  | none =>
    simp only [hfv] at h
    cases h
  | some v =>
    simp only [hfv] at h
    by_cases hlt : v.stock < q
    · rw [if_pos hlt] at h
      cases h
    · rw [if_neg hlt] at h
      cases h
      exact ⟨v, rfl, hlt, rfl⟩

theorem updStockAll_cons_skip (ps : List Product) (it : CartItem)
    (rest : List CartItem) (hfp : findProduct ps it.productId = none) :
    updStockAll ps (it :: rest) = updStockAll ps rest := by
  conv_lhs => unfold updStockAll
  simp only [hfp]

theorem updStockAll_cons_err (ps : List Product) (it : CartItem)
    (rest : List CartItem) (p : Product) (e : String)
    (hfp : findProduct ps it.productId = some p)
    (hus : p.updateStock it.variantId it.quantity = .error e) :
    updStockAll ps (it :: rest) = (ps, true) := by
  conv_lhs => unfold updStockAll
  simp only [hfp, hus]

theorem updStockAll_cons_ok (ps : List Product) (it : CartItem)
    (rest : List CartItem) (p p' : Product)
    (hfp : findProduct ps it.productId = some p)
    (hus : p.updateStock it.variantId it.quantity = .ok p') :
    updStockAll ps (it :: rest) = updStockAll (replaceProduct ps p') rest := by
  conv_lhs => unfold updStockAll
  simp only [hfp, hus]

theorem updStockAll_frame (items : List CartItem) (ps : List Product)
    (pid vid : String)
    (h : ∀ it ∈ items, ¬(it.productId = pid ∧ it.variantId = vid)) :
    getStock (updStockAll ps items).1 pid vid = getStock ps pid vid := by
  induction items generalizing ps with
  | nil => rfl
  | cons it rest ih =>
    cases hfp : findProduct ps it.productId with
    | none =>
      rw [updStockAll_cons_skip ps it rest hfp]
      exact ih ps fun x hx => h x (List.mem_cons_of_mem it hx)
    | some p =>
      cases hus : p.updateStock it.variantId it.quantity with
      | error e =>
        rw [updStockAll_cons_err ps it rest p e hfp hus]
      | ok p' =>
        rw [updStockAll_cons_ok ps it rest p p' hfp hus]
        rw [ih (replaceProduct ps p') fun x hx => h x (List.mem_cons_of_mem it hx)]
        obtain ⟨v, hfv, hlt, rfl⟩ := updateStock_ok_inv p _ _ p' hus
        exact getStock_dec_other ps it.productId it.variantId it.quantity p hfp
          pid vid fun hcontra =>
            h it (List.mem_cons_self it rest) ⟨hcontra.1.symm, hcontra.2.symm⟩

theorem updStockAll_spec (items : List CartItem) (ps : List Product)
    (hok : ∀ it ∈ items, lineGood ps it = true)
    (hnd : (items.map fun it => (it.productId, it.variantId)).Nodup) :
    (updStockAll ps items).2 = false ∧
    ∀ it ∈ items, ∃ s, getStock ps it.productId it.variantId = some s ∧
      it.quantity ≤ s ∧
      getStock (updStockAll ps items).1 it.productId it.variantId =
        some (s - it.quantity) := by
  induction items generalizing ps with
  | nil => exact ⟨rfl, by simp⟩
  | cons it rest ih =>
    have hg := hok it (List.mem_cons_self it rest)
    unfold lineGood at hg
    cases hfp : findProduct ps it.productId with
    | none =>
      simp only [hfp] at hg
      cases hg
    | some p =>
      simp only [hfp, Bool.and_eq_true] at hg
      obtain ⟨ha, hins⟩ := hg
      unfold Product.isInStock at hins
      cases hfv : p.findVariant it.variantId with
      | none =>
        simp only [hfv] at hins
        cases hins
      | some v =>
        simp only [hfv, decide_eq_true_eq] at hins
        have hus := updateStock_ok p it.variantId it.quantity v hfv hins
        rw [updStockAll_cons_ok ps it rest p _ hfp hus]
        rw [List.map_cons, List.nodup_cons] at hnd
        obtain ⟨hnotin, hndrest⟩ := hnd
        have hpairne : ∀ x ∈ rest,
            ¬(x.productId = it.productId ∧ x.variantId = it.variantId) := by
          intro x hx hcontra
          have hmm : (x.productId, x.variantId) ∈
              rest.map fun y => (y.productId, y.variantId) :=
            List.mem_map_of_mem _ hx
          rw [hcontra.1, hcontra.2] at hmm
          exact hnotin hmm
        have hok' : ∀ x ∈ rest,
            lineGood (replaceProduct ps
              { p with variants := decVariant p.variants it.variantId it.quantity }) x = true := by
          intro x hx
          rw [lineGood_dec_other ps it.productId it.variantId it.quantity p hfp x
            (hpairne x hx)]
          exact hok x (List.mem_cons_of_mem it hx)
        obtain ⟨hflag, hrest⟩ := ih
          (replaceProduct ps
            { p with variants := decVariant p.variants it.variantId it.quantity })
          hok' hndrest
        refine ⟨hflag, ?_⟩
        intro x hx
        rcases List.mem_cons.mp hx with rfl | hx'
        · refine ⟨v.stock, ?_, hins, ?_⟩
          · simp only [getStock, hfp, hfv]
          · rw [updStockAll_frame rest _ x.productId x.variantId hpairne]
            exact getStock_dec_self ps x.productId x.variantId x.quantity p v hfp hfv
        · obtain ⟨s, hs1, hs2, hs3⟩ := hrest x hx'
          refine ⟨s, ?_, hs2, hs3⟩
          rw [← getStock_dec_other ps it.productId it.variantId it.quantity p hfp
            x.productId x.variantId (hpairne x hx')]
          exact hs1

theorem findPromo_inc (promos : List PromoCode) (code : String) :
    findPromo (incPromoUsage promos code) code =
      (findPromo promos code).map PromoCode.incrementUsage := by
  induction promos with
  | nil => rfl
  | cons p rest ih =>
    unfold incPromoUsage findPromo
    by_cases hp : p.code = code
    · rw [if_pos hp]
      rw [List.find?_cons_of_pos _ (by simp [PromoCode.incrementUsage, hp]),
        List.find?_cons_of_pos _ (by simp [hp])]
      rfl
    · rw [if_neg hp]
      rw [List.find?_cons_of_neg _ (by simp [PromoCode.incrementUsage, hp]),
        List.find?_cons_of_neg _ (by simp [hp])]
      exact ih

theorem findPromo_of_mem_unique (promos : List PromoCode) (c : String)
    (p0 : PromoCode) (hmem : p0 ∈ promos) (hcode : p0.code = c)
    (hnd : (promos.map PromoCode.code).Nodup) :
    findPromo promos c = some p0 := by
  induction promos with
  | nil => cases hmem
  | cons p rest ih =>
    rw [List.map_cons, List.nodup_cons] at hnd
    rcases List.mem_cons.mp hmem with rfl | hmem'
    · unfold findPromo
      rw [List.find?_cons_of_pos _ (by simp [hcode])]
    · by_cases hp : p.code = c
      · exfalso
        have hmm : p0.code ∈ rest.map PromoCode.code := List.mem_map_of_mem _ hmem'
        rw [hcode, ← hp] at hmm
        exact hnd.1 hmm
      · unfold findPromo
        rw [List.find?_cons_of_neg _ (by simp [hp])]
        exact ih hmem' hnd.2

theorem findValidPromo_inv (promos : List PromoCode) (code : String)
    (subtotal : ℚ) (now : ℤ) (promo : PromoCode)
    (h : findValidPromoCode promos code subtotal now = some promo) :
    promos.find? (promoQueryMatch code now) = some promo ∧
      promo.code = upper code := by
  unfold findValidPromoCode at h
  cases hq : promos.find? (promoQueryMatch code now) with
  | none =>
    simp only [hq] at h
    cases h
  | some p0 =>
    simp only [hq] at h
    by_cases hmin : (truthyQ p0.minOrderAmount &&
        decide (subtotal < p0.minOrderAmount.getD 0)) = true
    · rw [if_pos hmin] at h
      cases h
    · rw [if_neg hmin] at h
      cases h
      have hqm := List.find?_some hq
      unfold promoQueryMatch at hqm
      simp only [Bool.and_eq_true, decide_eq_true_eq] at hqm
      exact ⟨rfl, hqm.1.1.1.1⟩

theorem findCart_replace (carts : List Cart) (cid : String) (now : ℤ)
    (cart c' : Cart) (h : findCart carts cid now = some cart)
    (hid : c'.id = cart.id) (hexp : now < c'.expiresAt)
    (hnd : (carts.map Cart.id).Nodup) :
    findCart (replaceCart carts c') cid now = some c' := by
  have hcid : cart.id = cid ∧ now < cart.expiresAt := by
    have := List.find?_some h
    simpa using this
  induction carts with
  | nil => simp [findCart] at h
  | cons c rest ih =>
    rw [List.map_cons, List.nodup_cons] at hnd
    unfold findCart at h ⊢
    unfold replaceCart
    rw [List.find?_cons] at h
    by_cases hc1 : (decide (c.id = cid) && decide (now < c.expiresAt)) = true
    · simp only [hc1] at h
      cases h
      rw [if_pos (by rw [hid])]
      rw [List.find?_cons]
      have hc' : (decide (c'.id = cid) && decide (now < c'.expiresAt)) = true := by
        simp [hid, hcid.1, hexp]
      simp only [hc']
    · have hc1' : (decide (c.id = cid) && decide (now < c.expiresAt)) = false :=
        Bool.eq_false_iff.mpr hc1
      simp only [hc1'] at h
      have hcmem : cart ∈ rest := List.mem_of_find?_eq_some h
      have hcne : ¬(c.id = c'.id) := by
        rw [hid]
        intro hcc
        have hmm : cart.id ∈ rest.map Cart.id := List.mem_map_of_mem _ hcmem
        rw [← hcc] at hmm
        exact hnd.1 hmm
      rw [if_neg hcne]
      rw [List.find?_cons]
      simp only [hc1']
      exact ih h hnd.2

theorem clearCart_ok (c : Cart) :
    c.clearCart =
      .ok (Cart.calculateTotals { c with items := [], promoCode := none, discount := 0 }) := by
  unfold Cart.clearCart
  apply save_calc_ok
  apply calc_validB
  · intro it hit
    cases hit
  · exact le_refl 0
  · show (0 : ℚ) ≤ itemsSum []
    simp [itemsSum]

/-- C3: a successful checkout creates a pending/pending order snapshotting
the cart's items, subtotal and the authoritative discount with
`total = subtotal − discount`; every variant referenced by a cart line loses
exactly that line's quantity of stock; a supplied valid promo's `usedCount`
rises by exactly one (no promo supplied leaves the promos untouched); and
the source cart is cleared — afterwards it resolves with no items and zero
discount. -/
theorem checkout_success (db : DB) (req : CheckoutReq) (now : ℤ)
    (cart : Cart) (fd : ℚ)
    (hc : findCart db.carts req.cartId now = some cart)
    (hCid : (db.carts.map Cart.id).Nodup)
    (hPcode : (db.promos.map PromoCode.code).Nodup)
    (hne : cart.items ≠ [])
    (hpairs : (cart.items.map fun it => (it.productId, it.variantId)).Nodup)
    (hgood : ∀ it ∈ cart.items, lineGood db.products it = true)
    (hfd : promoStep db.promos req.promoCode cart.subtotal cart.discount now = some fd) :
    ∃ order db', checkoutPost db req now = (.created order, db') ∧
      order.subtotal = cart.subtotal ∧
      order.discount = fd ∧
      order.total = cart.subtotal - fd ∧
      order.status = .pending ∧
      order.paymentStatus = .pending ∧
      order.items = cart.items ∧
      db'.orders = db.orders ++ [order] ∧
      (∀ it ∈ cart.items, ∃ s,
        getStock db.products it.productId it.variantId = some s ∧
        it.quantity ≤ s ∧
        getStock db'.products it.productId it.variantId = some (s - it.quantity)) ∧
      (∀ promo, truthyS req.promoCode = true →
        findValidPromoCode db.promos (req.promoCode.getD "") cart.subtotal now = some promo →
        findPromo db'.promos (upper (req.promoCode.getD "")) =
          some { promo with usedCount := promo.usedCount + 1 }) ∧
      (truthyS req.promoCode = false → db'.promos = db.promos) ∧
      (∃ cleared, findCart db'.carts req.cartId now = some cleared ∧
        cleared.items = [] ∧ cleared.discount = 0 ∧ cleared.promoCode = none) := by
  have hval : stockCheck db.products cart.items = none :=
    (stockCheck_none_iff _ _).mpr hgood
  have hie : cart.items.isEmpty = false := by
    cases h' : cart.items with
    | nil => exact absurd h' hne
    | cons a l => rfl
  obtain ⟨hflag, hstock⟩ := updStockAll_spec cart.items db.products hgood hpairs
  have hclear := clearCart_ok cart
  have hexp : now < cart.expiresAt := by
    have := List.find?_some hc
    simp only [Bool.and_eq_true, decide_eq_true_eq] at this
    exact this.2
  have hfindrepl :
      findCart (replaceCart db.carts
          (Cart.calculateTotals { cart with items := [], promoCode := none, discount := 0 }))
        req.cartId now =
        some (Cart.calculateTotals { cart with items := [], promoCode := none, discount := 0 }) :=
    findCart_replace db.carts req.cartId now cart _ hc rfl hexp hCid
  by_cases htr : truthyS req.promoCode = true
  · refine ⟨{ cartId := cart.id, items := cart.items, subtotal := cart.subtotal,
              discount := fd, total := cart.subtotal - fd, promoCode := req.promoCode,
              status := .pending, paymentMethod := req.paymentMethod,
              paymentStatus := .pending, trackingNumber := none, notes := none },
      { carts := replaceCart db.carts
            (Cart.calculateTotals { cart with items := [], promoCode := none, discount := 0 }),
        products := (updStockAll db.products cart.items).1,
        promos := incPromoUsage db.promos (upper (req.promoCode.getD "")),
        orders := db.orders ++
            [{ cartId := cart.id, items := cart.items, subtotal := cart.subtotal,
               discount := fd, total := cart.subtotal - fd, promoCode := req.promoCode,
               status := .pending, paymentMethod := req.paymentMethod,
               paymentStatus := .pending, trackingNumber := none, notes := none }] },
      ?_, rfl, rfl, rfl, rfl, rfl, rfl, rfl, hstock, ?_, ?_, ?_⟩
    · unfold checkoutPost
      simp [hc, hie, hval, hfd, htr, hflag, hclear]
    · intro promo _ hfv
      obtain ⟨hfind, hcode⟩ := findValidPromo_inv db.promos _ cart.subtotal now promo hfv
      have hmem := List.mem_of_find?_eq_some hfind
      have h1 : findPromo db.promos (upper (req.promoCode.getD "")) = some promo :=
        findPromo_of_mem_unique _ _ _ hmem hcode hPcode
      show findPromo (incPromoUsage db.promos _) _ = _
      rw [findPromo_inc, h1]
      rfl
    · intro hcontra
      rw [htr] at hcontra
      cases hcontra
    · exact ⟨_, hfindrepl, rfl, rfl, rfl⟩
  · have htr' : truthyS req.promoCode = false := Bool.eq_false_iff.mpr htr
    refine ⟨{ cartId := cart.id, items := cart.items, subtotal := cart.subtotal,
              discount := fd, total := cart.subtotal - fd, promoCode := cart.promoCode,
              status := .pending, paymentMethod := req.paymentMethod,
              paymentStatus := .pending, trackingNumber := none, notes := none },
      { carts := replaceCart db.carts
            (Cart.calculateTotals { cart with items := [], promoCode := none, discount := 0 }),
        products := (updStockAll db.products cart.items).1,
        promos := db.promos,
        orders := db.orders ++
            [{ cartId := cart.id, items := cart.items, subtotal := cart.subtotal,
               discount := fd, total := cart.subtotal - fd, promoCode := cart.promoCode,
               status := .pending, paymentMethod := req.paymentMethod,
               paymentStatus := .pending, trackingNumber := none, notes := none }] },
      ?_, rfl, rfl, rfl, rfl, rfl, rfl, rfl, hstock, ?_, fun _ => rfl, ?_⟩
    · unfold checkoutPost
      simp [hc, hie, hval, hfd, htr', hflag, hclear]
    · intro promo hcontra _
      rw [htr'] at hcontra
      cases hcontra
    · exact ⟨_, hfindrepl, rfl, rfl, rfl⟩

theorem checkout_success_witness :
    (findCart shopDB.carts promoReq.cartId 5 = some cartOne ∧
      promoStep shopDB.promos promoReq.promoCode cartOne.subtotal cartOne.discount 5 =
        some 5 ∧
      (∀ it ∈ cartOne.items, lineGood shopDB.products it = true)) ∧
    ∃ order db', checkoutPost shopDB promoReq 5 = (.created order, db') ∧
      order.subtotal = cartOne.subtotal ∧ order.discount = 5 ∧
      order.status = .pending ∧
      (∀ it ∈ cartOne.items, ∃ s,
        getStock shopDB.products it.productId it.variantId = some s ∧
        it.quantity ≤ s ∧
        getStock db'.products it.productId it.variantId = some (s - it.quantity)) ∧
      (∃ cleared, findCart db'.carts promoReq.cartId 5 = some cleared ∧
        cleared.items = [] ∧ cleared.discount = 0 ∧ cleared.promoCode = none) := by
  have hc : findCart shopDB.carts promoReq.cartId 5 = some cartOne := by decide
  have hfd : promoStep shopDB.promos promoReq.promoCode cartOne.subtotal
      cartOne.discount 5 = some 5 := by decide
  have hgood : ∀ it ∈ cartOne.items, lineGood shopDB.products it = true := by decide
  obtain ⟨order, db', h1, hsub, hdisc, -, hstat, -, -, -, hstock, -, -, hclr⟩ :=
    checkout_success shopDB promoReq 5 cartOne 5 hc (by decide) (by decide)
      (by decide) (by decide) hgood hfd
  exact ⟨⟨hc, hfd, hgood⟩, order, db', h1, hsub, hdisc, hstat, hstock, hclr⟩

end Storefront
